import Mathlib

/-!
Verification of the Visa Guide AI sync layer (`src/data-sync.js`) and the
document manager (`DocumentManager` in the unnamed source file) against the
repository specification.

The embedding is a shallow, executable model of the JavaScript source:

* JSON values stored in `localStorage` (after `JSON.parse`) become `Val`.
* `localStorage` and JavaScript objects/`Map`s become association lists with
  first-match lookup, in-place replacement on `setItem`/property assignment
  (JavaScript keeps the insertion position of an existing key), and removal.
* The mutable fields of the `DataSync` class that the specification's claims
  touch become the record `SyncState`; methods become functions from state to
  state, paired with a `RunLog` recording the remote gateway calls made, the
  status listeners invoked, and a listener exception escaping the operation.
* The remote gateway (`FirebaseCore.updateDocument`) is modelled at its call
  boundary: a call is a `WriteCall`, and a decision function
  `gw : WriteCall → Bool` says whether the remote write succeeds (`true`) or
  throws (`false`).
* `new Date().toISOString()` is modelled by an explicit `now : String`
  parameter supplied at the point the source reads the clock.
-/

namespace VisaGuide

/-- A JavaScript/JSON value as it appears in `localStorage` after
`JSON.parse`, and in write payloads. -/
inductive Val : Type where
  | vnull : Val
  | vbool : Bool → Val
  | vnum : Int → Val
  | vstr : String → Val
  | vobj : List (String × Val) → Val
  deriving Repr

/-- Does the character list `s` start with `p`? -/
def charsStartWith : List Char → List Char → Bool
  | _, [] => true
  | [], _ :: _ => false
  | c :: s, p :: ps => c == p && charsStartWith s ps

/-- `s.startsWith p` on strings, re-implemented over the underlying character
lists so that proofs can evaluate it. -/
def strStartsWith (s p : String) : Bool :=
  charsStartWith s.data p.data

/-- First-match lookup in an association list; models `localStorage.getItem`
(returning `none` for JS `null`), `Map.get`, and JS object property read. -/
def lookup {α : Type} : List (String × α) → String → Option α
  | [], _ => none
  | (k', v) :: rest, k => if k' = k then some v else lookup rest k

/-- Replace the value at a key, keeping its position, or append a fresh entry;
models `localStorage.setItem`, `Map.set`, and JS object property assignment. -/
def setItem {α : Type} : List (String × α) → String → α → List (String × α)
  | [], k, v => [(k, v)]
  | (k', v') :: rest, k, v =>
      if k' = k then (k, v) :: rest else (k', v') :: setItem rest k v

/-- Remove the entry at a key; models `localStorage.removeItem` and
`Map.delete`. -/
def removeItem {α : Type} : List (String × α) → String → List (String × α)
  | [], _ => []
  | (k', v') :: rest, k =>
      if k' = k then removeItem rest k else (k', v') :: removeItem rest k

/-- A registered sync-status listener (`DataSync.syncListeners` element).
Listeners are identified by `id` for observation; `isFunction` models the
source's `typeof listener === 'function'` guard; `throws st msg` says whether
invoking the listener with that status and message raises an exception. -/
structure Listener where
  id : Nat
  isFunction : Bool
  throws : String → String → Bool

/-- A call to `FirebaseCore.updateDocument(path, data)`: the document path and
the partial-update fields exactly as the caller passes them. -/
structure WriteCall where
  path : String
  fields : List (String × Val)
  deriving Repr

/-- A pending debounced write: the closure data captured by the `setTimeout`
callback in `DataSync.saveFormData`. -/
structure PendingWrite where
  collection : String
  docId : String
  fieldName : String
  value : Val
  deriving Repr

/-- The mutable `DataSync` fields the claims are about (`constructor`,
`src/data-sync.js` lines 8-23).  `db`, `auth`, `unsubscribers` and
`initialized` are plumbing for the external SDK and the real-time
subscriptions, which the claims do not touch; they are elided. -/
structure SyncState where
  userId : Option String
  syncStatus : String
  syncListeners : List Listener
  writeDebounceMs : Nat
  pendingWrites : List (String × PendingWrite)
  localStorage : List (String × Val)

/-- The `DataSync` constructor (lines 8-23): `userId = null`,
`syncStatus = 'synced'`, no listeners, `writeDebounceMs = 500`, empty
`pendingWrites`.  `localStorage` is ambient browser state the constructor
does not touch, so it is a parameter. -/
def mkDataSync (store : List (String × Val)) : SyncState :=
  { userId := none
    syncStatus := "synced"
    syncListeners := []
    writeDebounceMs := 500
    pendingWrites := []
    localStorage := store }

/-- Run `syncListeners.forEach(l => { if (typeof l === 'function') l(status, message) })`:
returns the ids invoked in order and, if one of them threw, the id of the
thrower (a throw aborts `forEach`, so later listeners are not visited). -/
def runListeners : List Listener → String → String → List Nat × Option Nat
  | [], _, _ => ([], none)
  | l :: rest, st, msg =>
      if l.isFunction then
        if l.throws st msg then ([l.id], some l.id)
        else
          let (ids, ex) := runListeners rest st msg
          (l.id :: ids, ex)
      else runListeners rest st msg

/-- `DataSync._notifySyncListeners(status, message)` (lines 516-526): sets
`syncStatus` first, then invokes the listeners; returns the invoked ids and
the escaping exception, if any.  (`_updateSyncStatusUI` is pure DOM rendering
and is elided.) -/
def notifySyncListeners (s : SyncState) (status msg : String) :
    SyncState × List Nat × Option Nat :=
  let (ids, ex) := runListeners s.syncListeners status msg
  ({ s with syncStatus := status }, ids, ex)

/-- `DataSync.addSyncListener(callback)` (lines 553-555). -/
def addSyncListener (s : SyncState) (l : Listener) : SyncState :=
  { s with syncListeners := s.syncListeners ++ [l] }

/-- `DataSync._saveToLocalStorage(collection, docId, fieldName, value)`
(lines 346-353): read `collection_docId`, parse (or start from `{}` when the
key is absent), set the field, refresh `_lastUpdated`, and write back.
Entries written by this module are always JSON objects; a non-object stored
value is treated like an absent one (the code's `: {}` default). -/
def saveToLocalStorage (store : List (String × Val)) (c d f : String)
    (v : Val) (now : String) : List (String × Val) :=
  let key := c ++ "_" ++ d
  let data : List (String × Val) :=
    match lookup store key with
    | some (Val.vobj fields) => fields
    | _ => []
  let data₁ := setItem data f v
  let data₂ := setItem data₁ "_lastUpdated" (Val.vstr now)
  setItem store key (Val.vobj data₂)

/-- Read a backlog entry by its write-key `(collection, documentId, fieldName)`:
the field `f` of the JSON object stored under `collection_docId`. -/
def backlogGet (store : List (String × Val)) (c d f : String) : Option Val :=
  match lookup store (c ++ "_" ++ d) with
  | some (Val.vobj fields) => lookup fields f
  | _ => none

/-- Observable effects of running one `DataSync` operation: the
`FirebaseCore.updateDocument` calls issued, the listener ids invoked, and, if
a listener exception escaped the operation (rejecting its promise), the id of
the throwing listener. -/
structure RunLog where
  calls : List WriteCall
  invoked : List Nat
  raised : Option Nat
  deriving Repr

/-- `DataSync.saveFormData(collection, docId, fieldName, value)`
(lines 222-257).  With no `userId`, it writes straight to `localStorage` and
returns (no notification, no timer).  Otherwise it notifies `'syncing'`,
cancels any pending debounce timer for the write-key
`collection.docId.fieldName`, and schedules a fresh flush capturing this
call's arguments.  `now` is the clock reading, used only on the
unauthenticated path (`_saveToLocalStorage` stamps `_lastUpdated`).  The
scheduled flush itself is modelled separately by `fireFlush`. -/
def saveFormData (s : SyncState) (c d f : String) (v : Val) (now : String) :
    SyncState × RunLog :=
  match s.userId with
  | none =>
      ({ s with localStorage := saveToLocalStorage s.localStorage c d f v now },
       ⟨[], [], none⟩)
  | some _ =>
      let (s₁, ids, ex) := notifySyncListeners s "syncing" "Saving..."
      match ex with
      | some e => (s₁, ⟨[], ids, some e⟩)
      | none =>
          let key := c ++ "." ++ d ++ "." ++ f
          ({ s₁ with pendingWrites := setItem s₁.pendingWrites key ⟨c, d, f, v⟩ },
           ⟨[], ids, none⟩)

/-- The payload the debounced flush sends:
`const data = {}; data[fieldName] = value; data.lastUpdated = now` —
JavaScript property assignment, so a `fieldName` of `"lastUpdated"` is
overwritten by the timestamp. -/
def flushData (f : String) (v : Val) (now : String) : List (String × Val) :=
  setItem (setItem [] f v) "lastUpdated" (Val.vstr now)

/-- The string the source interpolates for `this.userId` in
`'users/' + this.userId` paths: a missing user reads as `"null"`. -/
def uidString (s : SyncState) : String :=
  match s.userId with
  | some u => u
  | none => "null"

/-- The `setTimeout` callback scheduled by `saveFormData` (lines 237-254),
firing for the pending write at `key`: it calls
`FirebaseCore.updateDocument('users/' + userId, data)`; on success it
notifies `'synced'`; on any exception it notifies `'error'` and persists the
captured value via `_saveToLocalStorage`; finally it deletes the
`pendingWrites` entry.  A listener exception thrown by the success
notification is caught by the same `catch`, so it runs the error path; one
thrown by the error notification escapes the callback, skipping the delete. -/
def fireFlush (gw : WriteCall → Bool) (s : SyncState) (key : String)
    (now : String) : SyncState × RunLog :=
  match lookup s.pendingWrites key with
  | none => (s, ⟨[], [], none⟩)
  | some p =>
      let call : WriteCall :=
        ⟨"users/" ++ uidString s, flushData p.fieldName p.value now⟩
      if gw call then
        let (s₁, ids₁, ex₁) := notifySyncListeners s "synced" "All changes saved"
        match ex₁ with
        | none =>
            ({ s₁ with pendingWrites := removeItem s₁.pendingWrites key },
             ⟨[call], ids₁, none⟩)
        | some _ =>
            let (s₂, ids₂, ex₂) := notifySyncListeners s₁ "error" "Sync failed"
            match ex₂ with
            | none =>
                let ls₃ := saveToLocalStorage s₂.localStorage p.collection
                  p.docId p.fieldName p.value now
                let s₃ := { s₂ with localStorage := ls₃ }
                ({ s₃ with pendingWrites := removeItem s₃.pendingWrites key },
                 ⟨[call], ids₁ ++ ids₂, none⟩)
            | some e => (s₂, ⟨[call], ids₁ ++ ids₂, some e⟩)
      else
        let (s₁, ids₁, ex₁) := notifySyncListeners s "error" "Sync failed"
        match ex₁ with
        | none =>
            let ls₂ := saveToLocalStorage s₁.localStorage p.collection
              p.docId p.fieldName p.value now
            let s₂ := { s₁ with localStorage := ls₂ }
            ({ s₂ with pendingWrites := removeItem s₂.pendingWrites key },
             ⟨[call], ids₁, none⟩)
        | some e => (s₁, ⟨[call], ids₁, some e⟩)

/-- The key filter in `forceSync` (lines 584-587): keys starting with
`forms_`, `documents_` or `profile_`, plus the singleton keys `formData`,
`progressData` and `settings`. -/
def isBacklogKey (k : String) : Bool :=
  strStartsWith k "forms_" || strStartsWith k "documents_" ||
    strStartsWith k "profile_" ||
    k == "formData" || k == "progressData" || k == "settings"

/-- The `if`/`else if` chain in the `forceSync` loop (lines 594-600): the
three singleton keys map to the Firestore field their payload is written
under; every other key falls through with no remote write. -/
def singletonField (k : String) : Option String :=
  if k = "formData" then some "forms"
  else if k = "progressData" then some "progress"
  else if k = "settings" then some "settings"
  else none

/-- One iteration of the `forceSync` loop (lines 589-607) for `key`: parse
the stored item (`JSON.parse(localStorage.getItem(key))`, `Val.vnull` for an
absent item), remote-write it if the key is one of the three singletons, and
remove the item — the removal also runs when no branch of the `if` chain
matched, and is skipped only when the remote write threw (the `catch`
swallows the error and the loop continues). -/
def processKey (gw : WriteCall → Bool) (uid : String) (s : SyncState)
    (k : String) : SyncState × List WriteCall :=
  let data := (lookup s.localStorage k).getD Val.vnull
  match singletonField k with
  | some fld =>
      let call : WriteCall := ⟨"users/" ++ uid, [(fld, data)]⟩
      if gw call then
        ({ s with localStorage := removeItem s.localStorage k }, [call])
      else (s, [call])
  | none => ({ s with localStorage := removeItem s.localStorage k }, [])

/-- The `forceSync` loop over the key list computed up front. -/
def forceSyncLoop (gw : WriteCall → Bool) (uid : String) :
    SyncState → List String → SyncState × List WriteCall
  | s, [] => (s, [])
  | s, k :: ks =>
      let (s₁, cs₁) := processKey gw uid s k
      let (s₂, cs₂) := forceSyncLoop gw uid s₁ ks
      (s₂, cs₁ ++ cs₂)

/-- The keys `forceSync` will process, in `localStorage` order
(`Object.keys(localStorage).filter(...)`, lines 584-587). -/
def backlogKeys (store : List (String × Val)) : List String :=
  (store.map Prod.fst).filter isBacklogKey

/-- `DataSync.forceSync()` (lines 578-611): returns `false` immediately with
no effect when no `userId` is present; otherwise notifies `'syncing'`,
processes every backlog key, notifies `'synced'` unconditionally, and
returns `true`.  The returned `Bool` is the source's return value on normal
completion; when a listener exception escapes (`RunLog.raised` set) the
promise rejects and there is no return value, reported here as `false`. -/
def forceSync (gw : WriteCall → Bool) (s : SyncState) :
    SyncState × RunLog × Bool :=
  match s.userId with
  | none => (s, ⟨[], [], none⟩, false)
  | some uid =>
      let (s₁, ids₁, ex₁) := notifySyncListeners s "syncing" "Syncing..."
      match ex₁ with
      | some e => (s₁, ⟨[], ids₁, some e⟩, false)
      | none =>
          let keys := backlogKeys s₁.localStorage
          let (s₂, cs) := forceSyncLoop gw uid s₁ keys
          let (s₃, ids₂, ex₂) := notifySyncListeners s₂ "synced" "All changes saved"
          match ex₂ with
          | some e => (s₃, ⟨cs, ids₁ ++ ids₂, some e⟩, false)
          | none => (s₃, ⟨cs, ids₁ ++ ids₂, none⟩, true)

/-- The state observable while a `forceSync` run with `j` fully processed
backlog entries is suspended at its next `await` (re-entry happens at such a
suspension point in the single-threaded event loop): the `'syncing'`
notification has run and the first `j` keys have been processed. -/
def forceSyncMid (gw : WriteCall → Bool) (s : SyncState) (j : Nat) : SyncState :=
  match s.userId with
  | none => s
  | some uid =>
      let s₁ := (notifySyncListeners s "syncing" "Syncing...").1
      (forceSyncLoop gw uid s₁ ((backlogKeys s₁.localStorage).take j)).1

/-- Every registered listener returns normally on every notification. -/
def listenersOk (s : SyncState) : Prop :=
  ∀ l ∈ s.syncListeners, ∀ st msg, l.throws st msg = false

/-- Scenario driver: a burst of `saveFormData` calls for the single write-key
`(c, d, f)`, one per value in the list, with no debounce timer firing in
between (the calls all land within one 500 ms debounce window).  Returns the
final state and every gateway call made during the burst. -/
def applyEdits (c d f : String) (nowS : String) :
    SyncState → List Val → SyncState × List WriteCall
  | s, [] => (s, [])
  | s, v :: vs =>
      let (s₁, log) := saveFormData s c d f v nowS
      let (s₂, cs) := applyEdits c d f nowS s₁ vs
      (s₂, log.calls ++ cs)

/-- The gateway call `forceSync` makes for a singleton backlog entry
(`formData`, `progressData` or `settings`): a partial update of
`users/{uid}` under the corresponding Firestore field. -/
def entryCall (uid : String) (kv : String × Val) : WriteCall :=
  ⟨"users/" ++ uid, [((singletonField kv.1).getD "", kv.2)]⟩

namespace DocumentManager

/-- A browser `File` as `DocumentManager` reads it: name, byte size, MIME
content type. -/
structure JsFile where
  name : String
  size : Nat
  type : String
  deriving Repr

/-- `DocumentManager.MAX_FILE_SIZE = 5 * 1024 * 1024`. -/
def MAX_FILE_SIZE : Nat := 5 * 1024 * 1024

/-- `DocumentManager.ALLOWED_TYPES`. -/
def ALLOWED_TYPES : List String :=
  ["application/pdf", "image/jpeg", "image/png", "image/jpg"]

/-- Result of `DocumentManager.validateFile`: `{ valid, error? }`.  The
dynamic part of the size message (the file's size rendered with
`toFixed(2)`, a floating-point formatting detail) is abstracted to the
static sentence. -/
structure ValidationResult where
  valid : Bool
  error : Option String
  deriving Repr

/-- `DocumentManager.validateFile(file)` (lines 44-66 of the unnamed source
file): missing file, then size, then content type. -/
def validateFile : Option JsFile → ValidationResult
  | none => ⟨false, some "No file selected"⟩
  | some f =>
      if f.size > MAX_FILE_SIZE then
        ⟨false, some "File too large. Maximum size is 5MB."⟩
      else if f.type ∉ ALLOWED_TYPES then
        ⟨false, some "Invalid file type. Only PDF, JPG, and PNG files are allowed."⟩
      else ⟨true, none⟩

/-- A remote effect `uploadDocument` can perform: a blob upload to Firebase
Storage, or the Firestore metadata `set`. -/
inductive RemoteEffect : Type where
  | storagePut (path : String) (fileName : String)
  | firestoreSet (uid : String) (docType : String)
  deriving Repr, DecidableEq

/-- `DocumentManager.uploadDocument(file, docType)` (lines 75-161 of the
unnamed source file), modelled over its effect boundary: validation happens
first and throws before any remote effect; then the auth check; then the
Storage `put` (outcome `storageOk`); then the Firestore metadata `set`
(outcome `dbOk`).  Returns the thrown error message or a success marker,
the remote effects attempted in order, and `localStorage` — which no path
of the function touches.  Progress callbacks and the download-URL fetch are
UI plumbing and are elided. -/
def uploadDocument (file : Option JsFile) (docType : String)
    (user : Option String) (storageOk dbOk : Bool)
    (store : List (String × Val)) :
    Except String Unit × List RemoteEffect × List (String × Val) :=
  let validation := validateFile file
  if validation.valid = false then
    (Except.error (validation.error.getD ""), [], store)
  else
    match user, file with
    | none, _ =>
        (Except.error "You must be logged in to upload documents", [], store)
    | some _, none =>
        -- unreachable: a missing file never passes validation
        (Except.error "No file selected", [], store)
    | some uid, some f =>
        let put := RemoteEffect.storagePut
          ("users/" ++ uid ++ "/documents/" ++ docType) f.name
        if storageOk then
          if dbOk then
            (Except.ok (), [put, RemoteEffect.firestoreSet uid docType], store)
          else
            (Except.error "Failed to save document information",
             [put, RemoteEffect.firestoreSet uid docType], store)
        else
          (Except.error "Upload failed", [put], store)

end DocumentManager

/-! ### Association-list and notification lemmas -/

theorem lookup_setItem {α : Type} (l : List (String × α)) (k : String) (v : α)
    (j : String) :
    lookup (setItem l k v) j = if k = j then some v else lookup l j := by
  induction l with
  | nil => simp [setItem, lookup]
  | cons e rest ih =>
      obtain ⟨k', v'⟩ := e
      by_cases hk : k' = k
      · subst hk
        by_cases hj : k' = j <;> simp [setItem, lookup, hj]
      · by_cases hj : k' = j
        · subst hj
          simp [setItem, lookup, hk, Ne.symm hk]
        · simp [setItem, lookup, hk, hj, ih]

theorem lookup_setItem_self {α : Type} (l : List (String × α)) (k : String)
    (v : α) : lookup (setItem l k v) k = some v := by
  rw [lookup_setItem, if_pos rfl]

theorem lookup_removeItem {α : Type} (l : List (String × α)) (k j : String) :
    lookup (removeItem l k) j = if k = j then none else lookup l j := by
  induction l with
  | nil => simp [removeItem, lookup]
  | cons e rest ih =>
      obtain ⟨k', v'⟩ := e
      by_cases hk : k' = k
      · subst hk
        by_cases hj : k' = j
        · subst hj; simp [removeItem, lookup, ih]
        · simp [removeItem, lookup, hj, ih]
      · by_cases hj : k' = j
        · subst hj
          simp [removeItem, lookup, hk, Ne.symm hk]
        · simp [removeItem, lookup, hk, hj, ih]

theorem removeItem_of_not_mem {α : Type} (l : List (String × α)) (k : String)
    (h : k ∉ l.map Prod.fst) : removeItem l k = l := by
  induction l with
  | nil => simp [removeItem]
  | cons e rest ih =>
      obtain ⟨k', v'⟩ := e
      simp only [List.map, List.mem_cons] at h
      push_neg at h
      simp [removeItem, Ne.symm h.1, ih h.2]

theorem lookup_append_right {α : Type} (pre rest : List (String × α))
    (j : String) (h : j ∉ pre.map Prod.fst) :
    lookup (pre ++ rest) j = lookup rest j := by
  induction pre with
  | nil => simp
  | cons e p ih =>
      obtain ⟨k', v'⟩ := e
      simp only [List.map, List.mem_cons] at h
      push_neg at h
      simp [lookup, Ne.symm h.1, ih h.2]

theorem removeItem_append_right {α : Type} (pre rest : List (String × α))
    (k : String) (h : k ∉ pre.map Prod.fst) :
    removeItem (pre ++ rest) k = pre ++ removeItem rest k := by
  induction pre with
  | nil => simp
  | cons e p ih =>
      obtain ⟨k', v'⟩ := e
      simp only [List.map, List.mem_cons] at h
      push_neg at h
      simp [removeItem, Ne.symm h.1, ih h.2]

theorem setItem_setItem {α : Type} (l : List (String × α)) (k : String)
    (a b : α) : setItem (setItem l k a) k b = setItem l k b := by
  induction l with
  | nil => simp [setItem]
  | cons e rest ih =>
      obtain ⟨k', v'⟩ := e
      by_cases hk : k' = k
      · subst hk; simp [setItem]
      · simp [setItem, hk, ih]

theorem length_filter_add_length_filter_not {α : Type} (l : List α)
    (p : α → Bool) :
    (l.filter p).length + (l.filter fun x => !p x).length = l.length := by
  induction l with
  | nil => simp
  | cons x rest ih =>
      by_cases hx : p x <;> simp [List.filter, hx, ih] <;> omega

theorem runListeners_ok (ls : List Listener) (st msg : String)
    (h : ∀ l ∈ ls, ∀ a b, l.throws a b = false) :
    runListeners ls st msg =
      ((ls.filter fun l => l.isFunction).map fun l => l.id, none) := by
  induction ls with
  | nil => simp [runListeners]
  | cons l rest ih =>
      have hl := h l (List.mem_cons_self l rest) st msg
      have hrest : ∀ x ∈ rest, ∀ a b, x.throws a b = false := by
        intro x hx a b
        exact h x (List.mem_cons_of_mem l hx) a b
      by_cases hf : l.isFunction
      · simp [runListeners, hf, hl, ih hrest]
      · simp [runListeners, hf, ih hrest]

theorem notifySyncListeners_ok (s : SyncState) (st msg : String)
    (h : listenersOk s) :
    notifySyncListeners s st msg =
      ({ s with syncStatus := st },
       (s.syncListeners.filter fun l => l.isFunction).map fun l => l.id,
       none) := by
  simp [notifySyncListeners, runListeners_ok s.syncListeners st msg h]

theorem backlogGet_save_self (store : List (String × Val)) (c d f : String)
    (v : Val) (now : String) (hf : f ≠ "_lastUpdated") :
    backlogGet (saveToLocalStorage store c d f v now) c d f = some v := by
  simp only [backlogGet, saveToLocalStorage, lookup_setItem_self]
  rw [lookup_setItem, if_neg (Ne.symm hf), lookup_setItem_self]

/-! ### Claim C8 -/

/-- C8 counterexample: the claim says the coordinator's initial sync status is
`Offline`; the constructor sets `this.syncStatus = 'synced'`, so before any
write, flush, identity change or reconciliation the status is `'synced'`,
not `'offline'`. -/
theorem initial_status_not_offline :
    (mkDataSync []).syncStatus = "synced" ∧
      (mkDataSync []).syncStatus ≠ "offline" :=
  ⟨rfl, by decide⟩

/-- C8 (amended): the initial value of the coordinator's sync status, for any
ambient `localStorage` contents, is `Synced` (`'synced'`); `Offline` is only
entered later, when an identity-change notification reports no user. -/
theorem initial_status_synced (store : List (String × Val)) :
    (mkDataSync store).syncStatus = "synced" := rfl

/-! ### Claim C10 -/

/-- C10: when the local store already holds a JSON object under
`collection_docId`, `_saveToLocalStorage` replaces it by the prior object
with the `fieldName` property set to the value and the `_lastUpdated`
timestamp refreshed (in that order, as the source assigns them); every field
other than `fieldName` and `_lastUpdated` is unchanged, and every other
store key is unchanged. -/
theorem saveToLocalStorage_frame (store : List (String × Val))
    (c d f : String) (v : Val) (now : String) (fields : List (String × Val))
    (h : lookup store (c ++ "_" ++ d) = some (Val.vobj fields)) :
    lookup (saveToLocalStorage store c d f v now) (c ++ "_" ++ d) =
      some (Val.vobj (setItem (setItem fields f v) "_lastUpdated"
        (Val.vstr now)))
    ∧ (∀ g, g ≠ f → g ≠ "_lastUpdated" →
        lookup (setItem (setItem fields f v) "_lastUpdated" (Val.vstr now)) g =
          lookup fields g)
    ∧ (∀ k, k ≠ c ++ "_" ++ d →
        lookup (saveToLocalStorage store c d f v now) k = lookup store k) := by
  refine ⟨?_, ?_, ?_⟩
  · simp only [saveToLocalStorage, h, lookup_setItem_self]
  · intro g hgf hgl
    rw [lookup_setItem, if_neg (Ne.symm hgl), lookup_setItem,
      if_neg (Ne.symm hgf)]
  · intro k hk
    simp only [saveToLocalStorage]
    rw [lookup_setItem, if_neg (Ne.symm hk)]

/-- C10 witness: concrete run of `saveToLocalStorage` on a store holding
`users_u1 = {email: "e"}`. -/
theorem saveToLocalStorage_frame_witness :
    lookup
      (saveToLocalStorage [("users_u1", Val.vobj [("email", Val.vstr "e")])]
        "users" "u1" "firstName" (Val.vstr "Ana") "2026-01-01") "users_u1" =
      some (Val.vobj [("email", Val.vstr "e"), ("firstName", Val.vstr "Ana"),
        ("_lastUpdated", Val.vstr "2026-01-01")])
    ∧ lookup
      (saveToLocalStorage [("users_u1", Val.vobj [("email", Val.vstr "e")])]
        "users" "u1" "firstName" (Val.vstr "Ana") "2026-01-01") "theme" =
      lookup [("users_u1", Val.vobj [("email", Val.vstr "e")])] "theme" := by
  have h := saveToLocalStorage_frame
    [("users_u1", Val.vobj [("email", Val.vstr "e")])]
    "users" "u1" "firstName" (Val.vstr "Ana") "2026-01-01"
    [("email", Val.vstr "e")] rfl
  exact ⟨h.1, h.2.2 "theme" (by decide)⟩

/-! ### Claim C9 -/

/-- C9: `validateFile` returns `valid: true` exactly when a file is present,
within the 5 MB size limit, and of an allowed content type; and whenever
validation fails, `uploadDocument` throws the validation error before any
remote storage or database effect, leaving `localStorage` (the backlog)
untouched. -/
theorem validateFile_uploadDocument_rejects_invalid :
    (∀ file, (DocumentManager.validateFile file).valid = true ↔
       ∃ f, file = some f ∧ f.size ≤ DocumentManager.MAX_FILE_SIZE ∧
         f.type ∈ DocumentManager.ALLOWED_TYPES)
    ∧ (∀ file docType user sOk dOk store,
        (DocumentManager.validateFile file).valid = false →
        DocumentManager.uploadDocument file docType user sOk dOk store =
          (Except.error ((DocumentManager.validateFile file).error.getD ""),
           [], store)) := by
  constructor
  · intro file
    cases file with
    | none => simp [DocumentManager.validateFile]
    | some f =>
        by_cases h1 : f.size > DocumentManager.MAX_FILE_SIZE
        · simp only [DocumentManager.validateFile, if_pos h1]
          constructor
          · intro h; exact absurd h (by decide)
          · rintro ⟨g, hg, hsize, -⟩
            cases hg
            omega
        · by_cases h2 : f.type ∈ DocumentManager.ALLOWED_TYPES
          · simp only [DocumentManager.validateFile, if_neg h1]
            rw [if_neg (by simpa using h2)]
            constructor
            · intro _
              exact ⟨f, rfl, by omega, h2⟩
            · intro _; rfl
          · simp only [DocumentManager.validateFile, if_neg h1]
            rw [if_pos (by simpa using h2)]
            constructor
            · intro h; exact absurd h (by decide)
            · rintro ⟨g, hg, -, htype⟩
              cases hg
              exact absurd htype h2
  · intro file docType user sOk dOk store h
    simp [DocumentManager.uploadDocument, h]

/-- C9 witness: a file with a disallowed content type is rejected by
`uploadDocument` with no remote effect and an unchanged store. -/
theorem validateFile_uploadDocument_witness :
    (DocumentManager.validateFile
        (some ⟨"virus.exe", 10, "application/x-msdownload"⟩)).valid = false
    ∧ DocumentManager.uploadDocument
        (some ⟨"virus.exe", 10, "application/x-msdownload"⟩)
        "passport" (some "u") true true [] =
      (Except.error
        "Invalid file type. Only PDF, JPG, and PNG files are allowed.",
       [], []) := by
  refine ⟨rfl, ?_⟩
  exact validateFile_uploadDocument_rejects_invalid.2
    (some ⟨"virus.exe", 10, "application/x-msdownload"⟩)
    "passport" (some "u") true true [] rfl

/-! ### Claim C2 -/

/-- C2 (code bug): a backlog entry under the fallback namespace `forms_`
(and likewise `documents_`, `profile_`) is deleted by `forceSync` with no
remote write at all — the loop's `if` chain matches none of the three
singleton keys, yet `localStorage.removeItem(key)` still runs, against the
source's own comment "Remove from localStorage after successful sync".
Here the gateway rejects every write, yet the entry is gone and no gateway
call was made: the write is silently lost. -/
theorem forceSync_deletes_prefix_entry_without_write :
    (forceSync (fun _ => false)
        { mkDataSync [("forms_doc1", Val.vobj [("q1", Val.vstr "yes")])] with
          userId := some "u" }).2.1.calls = []
    ∧ (forceSync (fun _ => false)
        { mkDataSync [("forms_doc1", Val.vobj [("q1", Val.vstr "yes")])] with
          userId := some "u" }).1.localStorage = [] :=
  ⟨rfl, rfl⟩

/-! ### Claim C7 -/

/-- C7 counterexample: with two registered listeners of which the first
throws, `_notifySyncListeners` invokes only the first — the exception
escapes `forEach`, so the later-registered listener (id 1) is never invoked
for that transition, contrary to the claim. -/
theorem notify_exception_blocks_later_listeners :
    runListeners [⟨0, true, fun _ _ => true⟩, ⟨1, true, fun _ _ => false⟩]
        "synced" "All changes saved" = ([0], some 0)
    ∧ 1 ∉ (runListeners
        [⟨0, true, fun _ _ => true⟩, ⟨1, true, fun _ _ => false⟩]
        "synced" "All changes saved").1 :=
  ⟨rfl, by decide⟩

/-- C7 (amended): every status transition invokes the registered listeners
synchronously in registration order, but only up to and including the first
listener that throws: when no listener throws, all of them (the
`typeof === 'function'` ones) run in order; when one throws, exactly the
non-throwing prefix and the thrower run, and the exception propagates,
preventing every later-registered listener. -/
theorem notify_order_and_exception_propagation :
    (∀ s st msg, listenersOk s →
       notifySyncListeners s st msg =
         ({ s with syncStatus := st },
          (s.syncListeners.filter fun l => l.isFunction).map fun l => l.id,
          none))
    ∧ (∀ st msg (pre post : List Listener) (l : Listener),
        (∀ x ∈ pre, x.throws st msg = false) → l.isFunction = true →
        l.throws st msg = true →
        runListeners (pre ++ l :: post) st msg =
          (((pre.filter fun x => x.isFunction).map fun x => x.id) ++ [l.id],
           some l.id)) := by
  constructor
  · exact fun s st msg h => notifySyncListeners_ok s st msg h
  · intro st msg pre post l hpre hf ht
    induction pre with
    | nil => simp [runListeners, hf, ht]
    | cons x rest ih =>
        have hx := hpre x (List.mem_cons_self x rest)
        have hrest : ∀ y ∈ rest, y.throws st msg = false := by
          intro y hy
          exact hpre y (List.mem_cons_of_mem x hy)
        by_cases hxf : x.isFunction
        · simp [runListeners, hxf, hx, ih hrest]
        · simp [runListeners, hxf, ih hrest]

/-- C7 witness: a no-throw notification invokes the single listener (id 7)
and sets the status; a burst with a thrower invokes ids `[1, 0]` and raises
listener 0's exception. -/
theorem notify_order_witness :
    notifySyncListeners
        { mkDataSync [] with syncListeners := [⟨7, true, fun _ _ => false⟩] }
        "syncing" "Saving..." =
      ({ mkDataSync [] with
          syncListeners := [⟨7, true, fun _ _ => false⟩],
          syncStatus := "syncing" }, [7], none)
    ∧ runListeners
        [⟨1, true, fun _ _ => false⟩, ⟨0, true, fun _ _ => true⟩]
        "error" "Sync failed" = ([1, 0], some 0) := by
  constructor
  · exact notify_order_and_exception_propagation.1 _ "syncing" "Saving..."
      (by intro l hl a b; simp at hl; subst hl; rfl)
  · exact notify_order_and_exception_propagation.2 "error" "Sync failed"
      [⟨1, true, fun _ _ => false⟩] [] ⟨0, true, fun _ _ => true⟩
      (by intro x hx; simp at hx; subst hx; rfl) rfl rfl

/-! ### Claim C4 -/

/-- C4 counterexample: recording a field change for the reserved field name
`_lastUpdated` while unauthenticated does not leave the passed value in the
backlog — `_saveToLocalStorage` immediately overwrites that property with
the fresh timestamp, so the write is lost rather than held. -/
theorem offline_write_lastUpdated_collision :
    backlogGet (saveFormData (mkDataSync []) "users" "u1" "_lastUpdated"
        (Val.vstr "Ana") "2026-01-01T00:00:00.000Z").1.localStorage
      "users" "u1" "_lastUpdated" ≠ some (Val.vstr "Ana") := by
  intro h
  have h2 : some (Val.vstr "2026-01-01T00:00:00.000Z") =
      some (Val.vstr "Ana") := h
  simp at h2

/-- C4 (amended): for every `saveFormData` call made with no authenticated
identity and a field name other than the reserved `_lastUpdated` metadata
property, no remote write is attempted, no listener is notified, no debounce
timer is created, the sync status is unchanged (no transition to `Syncing`),
and immediately afterwards the backlog holds exactly the passed value under
the write-key `(collection, documentId, fieldName)`. -/
theorem offline_write_goes_to_backlog (s : SyncState) (c d f : String)
    (v : Val) (now : String) (hu : s.userId = none)
    (hf : f ≠ "_lastUpdated") :
    (saveFormData s c d f v now).2 = ⟨[], [], none⟩
    ∧ (saveFormData s c d f v now).1.pendingWrites = s.pendingWrites
    ∧ (saveFormData s c d f v now).1.syncStatus = s.syncStatus
    ∧ (saveFormData s c d f v now).1.syncListeners = s.syncListeners
    ∧ backlogGet (saveFormData s c d f v now).1.localStorage c d f =
        some v := by
  simp only [saveFormData, hu]
  exact ⟨trivial, trivial, trivial, trivial,
    backlogGet_save_self _ _ _ _ _ _ hf⟩

/-- C4 witness: unauthenticated `("users","u1","firstName","Ana")` goes to
the backlog with no status change and no notification. -/
theorem offline_write_goes_to_backlog_witness :
    (saveFormData (mkDataSync []) "users" "u1" "firstName" (Val.vstr "Ana")
        "2026-01-01").2 = ⟨[], [], none⟩
    ∧ (saveFormData (mkDataSync []) "users" "u1" "firstName" (Val.vstr "Ana")
        "2026-01-01").1.syncStatus = "synced"
    ∧ backlogGet (saveFormData (mkDataSync []) "users" "u1" "firstName"
        (Val.vstr "Ana") "2026-01-01").1.localStorage "users" "u1"
        "firstName" = some (Val.vstr "Ana") := by
  have h := offline_write_goes_to_backlog (mkDataSync []) "users" "u1"
    "firstName" (Val.vstr "Ana") "2026-01-01" rfl (by decide)
  exact ⟨h.1, h.2.2.1, h.2.2.2.2⟩

/-! ### Claim C5 -/

/-- C5 counterexample: when the debounced flush for the reserved field name
`_lastUpdated` fails, the backlog entry afterwards holds the fresh timestamp
written by `_saveToLocalStorage`, not the value that failed to flush. -/
theorem flush_failure_lastUpdated_collision :
    backlogGet (fireFlush (fun _ => false)
        { mkDataSync [] with
          userId := some "u",
          pendingWrites := [("users.u1._lastUpdated",
            ⟨"users", "u1", "_lastUpdated", Val.vstr "Ana"⟩)] }
        "users.u1._lastUpdated" "2026-01-01T00:00:00.000Z").1.localStorage
      "users" "u1" "_lastUpdated" ≠ some (Val.vstr "Ana") := by
  intro h
  have h2 : some (Val.vstr "2026-01-01T00:00:00.000Z") =
      some (Val.vstr "Ana") := h
  simp at h2

/-- C5 (amended): when the debounced flush for a pending write fails
(gateway rejects it), no registered listener throws, and the field name is
not the reserved `_lastUpdated` property, then immediately afterwards the
status is `Error`, the backlog holds under that write-key exactly the value
captured for that flush, the pending timer entry is removed, and the single
gateway call carried that captured value. -/
theorem flush_failure_error_and_backlog (gw : WriteCall → Bool)
    (s : SyncState) (key now : String) (p : PendingWrite)
    (hp : lookup s.pendingWrites key = some p)
    (hok : listenersOk s)
    (hgw : gw ⟨"users/" ++ uidString s,
      flushData p.fieldName p.value now⟩ = false)
    (hf : p.fieldName ≠ "_lastUpdated") :
    (fireFlush gw s key now).1.syncStatus = "error"
    ∧ backlogGet (fireFlush gw s key now).1.localStorage p.collection
        p.docId p.fieldName = some p.value
    ∧ (fireFlush gw s key now).1.pendingWrites =
        removeItem s.pendingWrites key
    ∧ (fireFlush gw s key now).2.calls =
        [⟨"users/" ++ uidString s, flushData p.fieldName p.value now⟩] := by
  have hn := notifySyncListeners_ok s "error" "Sync failed" hok
  simp only [fireFlush, hp, hgw, hn]
  exact ⟨rfl, backlogGet_save_self _ _ _ _ _ _ hf, rfl, rfl⟩

/-- C5 witness: a failed flush of `("users","u1","firstName","Ana")` sets
status `'error'` and lands the exact value in the backlog. -/
theorem flush_failure_error_and_backlog_witness :
    (fireFlush (fun _ => false)
        { mkDataSync [] with
          userId := some "u",
          pendingWrites := [("users.u1.firstName",
            ⟨"users", "u1", "firstName", Val.vstr "Ana"⟩)] }
        "users.u1.firstName" "2026-01-01").1.syncStatus = "error"
    ∧ backlogGet (fireFlush (fun _ => false)
        { mkDataSync [] with
          userId := some "u",
          pendingWrites := [("users.u1.firstName",
            ⟨"users", "u1", "firstName", Val.vstr "Ana"⟩)] }
        "users.u1.firstName" "2026-01-01").1.localStorage "users" "u1"
        "firstName" = some (Val.vstr "Ana") := by
  have h := flush_failure_error_and_backlog (fun _ => false)
    { mkDataSync [] with
      userId := some "u",
      pendingWrites := [("users.u1.firstName",
        ⟨"users", "u1", "firstName", Val.vstr "Ana"⟩)] }
    "users.u1.firstName" "2026-01-01"
    ⟨"users", "u1", "firstName", Val.vstr "Ana"⟩
    rfl (by intro l hl a b; simp [mkDataSync] at hl) rfl (by decide)
  exact ⟨h.1, h.2.1⟩

/-! ### Claim C3 -/

theorem flushData_of_ne (f : String) (v : Val) (now : String)
    (hf : f ≠ "lastUpdated") :
    flushData f v now = [(f, v), ("lastUpdated", Val.vstr now)] := by
  simp [flushData, setItem, hf]

theorem saveFormData_auth (s : SyncState) (u c d f : String) (v : Val)
    (now : String) (hu : s.userId = some u) (hok : listenersOk s) :
    saveFormData s c d f v now =
      ({ s with
          syncStatus := "syncing",
          pendingWrites := setItem s.pendingWrites
            (c ++ "." ++ d ++ "." ++ f) ⟨c, d, f, v⟩ },
       ⟨[], (s.syncListeners.filter fun l => l.isFunction).map fun l => l.id,
        none⟩) := by
  have hn := notifySyncListeners_ok s "syncing" "Saving..." hok
  simp [saveFormData, hu, hn]

theorem applyEdits_spec (c d f nowS u : String) (vs : List Val) :
    ∀ (w : Val) (s : SyncState), s.userId = some u → listenersOk s →
      (applyEdits c d f nowS s (vs ++ [w])).2 = []
      ∧ (applyEdits c d f nowS s (vs ++ [w])).1.pendingWrites =
          setItem s.pendingWrites (c ++ "." ++ d ++ "." ++ f) ⟨c, d, f, w⟩
      ∧ (applyEdits c d f nowS s (vs ++ [w])).1.syncStatus = "syncing"
      ∧ (applyEdits c d f nowS s (vs ++ [w])).1.userId = s.userId
      ∧ (applyEdits c d f nowS s (vs ++ [w])).1.syncListeners =
          s.syncListeners
      ∧ (applyEdits c d f nowS s (vs ++ [w])).1.localStorage =
          s.localStorage := by
  induction vs with
  | nil =>
      intro w s hu hok
      have hs := saveFormData_auth s u c d f w nowS hu hok
      simp [applyEdits, hs]
  | cons v vs ih =>
      intro w s hu hok
      have hs := saveFormData_auth s u c d f v nowS hu hok
      simp only [List.cons_append, applyEdits, hs, List.append_eq,
        List.nil_append]
      have h := ih w
        { s with
          syncStatus := "syncing",
          pendingWrites := setItem s.pendingWrites
            (c ++ "." ++ d ++ "." ++ f) ⟨c, d, f, v⟩ } hu hok
      obtain ⟨h1, h2, h3, h4, h5, h6⟩ := h
      refine ⟨h1, ?_, h3, h4, h5, h6⟩
      rw [h2]
      exact setItem_setItem s.pendingWrites (c ++ "." ++ d ++ "." ++ f)
        ⟨c, d, f, v⟩ ⟨c, d, f, w⟩

theorem fireFlush_calls (gw : WriteCall → Bool) (s : SyncState)
    (key now : String) (p : PendingWrite)
    (hp : lookup s.pendingWrites key = some p) (hok : listenersOk s) :
    (fireFlush gw s key now).2.calls =
      [⟨"users/" ++ uidString s, flushData p.fieldName p.value now⟩]
    ∧ (fireFlush gw s key now).1.pendingWrites =
        removeItem s.pendingWrites key := by
  by_cases hgw :
      gw ⟨"users/" ++ uidString s, flushData p.fieldName p.value now⟩ = true
  · have hn := notifySyncListeners_ok s "synced" "All changes saved" hok
    simp only [fireFlush, hp, hn, hgw]
    exact ⟨rfl, rfl⟩
  · rw [Bool.not_eq_true] at hgw
    have hn := notifySyncListeners_ok s "error" "Sync failed" hok
    simp only [fireFlush, hp, hn, hgw]
    exact ⟨rfl, rfl⟩

/-- C3 counterexample: a burst of two edits to the write-key
`users.u1.lastUpdated` (the reserved payload property) flushes a payload in
which the timestamp has overwritten the last value `"B"`: the single flush
does not carry the value of the last call. -/
theorem debounce_lastUpdated_collision :
    (fireFlush (fun _ => true)
        (applyEdits "users" "u1" "lastUpdated" "t0"
          { mkDataSync [] with userId := some "u" }
          [Val.vstr "A", Val.vstr "B"]).1
        "users.u1.lastUpdated" "2026-01-01T00:00:00.000Z").2.calls =
      [⟨"users/u", [("lastUpdated", Val.vstr "2026-01-01T00:00:00.000Z")]⟩]
    ∧ Val.vstr "2026-01-01T00:00:00.000Z" ≠ Val.vstr "B" :=
  ⟨rfl, by simp⟩

/-- C3 (amended): for every burst of authenticated `saveFormData` calls to
one write-key within a single debounce window (no timer fires in between),
starting with no pending timer and with no throwing listener, and with a
field name other than the reserved `lastUpdated` payload property: no
gateway write happens during the burst, exactly one pending timer remains —
holding the last value — and firing it produces exactly one gateway write
carrying the last value (then clears the timer slot); earlier values in the
window are never written remotely. -/
theorem debounce_last_write_wins (u c d f nowS now : String)
    (gw : WriteCall → Bool) (vs : List Val) (w : Val) (s : SyncState)
    (hu : s.userId = some u) (hp : s.pendingWrites = [])
    (hok : listenersOk s) (hf : f ≠ "lastUpdated") :
    (applyEdits c d f nowS s (vs ++ [w])).2 = []
    ∧ (applyEdits c d f nowS s (vs ++ [w])).1.pendingWrites =
        [(c ++ "." ++ d ++ "." ++ f, ⟨c, d, f, w⟩)]
    ∧ (fireFlush gw (applyEdits c d f nowS s (vs ++ [w])).1
        (c ++ "." ++ d ++ "." ++ f) now).2.calls =
        [⟨"users/" ++ u, [(f, w), ("lastUpdated", Val.vstr now)]⟩]
    ∧ (fireFlush gw (applyEdits c d f nowS s (vs ++ [w])).1
        (c ++ "." ++ d ++ "." ++ f) now).1.pendingWrites = [] := by
  obtain ⟨h1, h2, h3, h4, h5, h6⟩ := applyEdits_spec c d f nowS u vs w s hu hok
  rw [hp] at h2
  simp only [setItem] at h2
  have hlook : lookup (applyEdits c d f nowS s (vs ++ [w])).1.pendingWrites
      (c ++ "." ++ d ++ "." ++ f) = some ⟨c, d, f, w⟩ := by
    rw [h2]; simp [lookup]
  have hok' : listenersOk (applyEdits c d f nowS s (vs ++ [w])).1 := by
    unfold listenersOk
    rw [h5]
    exact hok
  have huid : uidString (applyEdits c d f nowS s (vs ++ [w])).1 = u := by
    unfold uidString
    rw [h4, hu]
  obtain ⟨hc, hr⟩ := fireFlush_calls gw (applyEdits c d f nowS s (vs ++ [w])).1
    (c ++ "." ++ d ++ "." ++ f) now ⟨c, d, f, w⟩ hlook hok'
  refine ⟨h1, h2, ?_, ?_⟩
  · rw [hc, huid, flushData_of_ne f w now hf]
  · rw [hr, h2]
    simp [removeItem]

/-- C3 witness: burst `A` then `B` for `users.u1.firstName` leaves one timer
holding `B`; firing it makes exactly one gateway call carrying `B`. -/
theorem debounce_last_write_wins_witness :
    (applyEdits "users" "u1" "firstName" "t0"
        { mkDataSync [] with userId := some "u" }
        ([Val.vstr "A"] ++ [Val.vstr "B"])).2 = []
    ∧ (applyEdits "users" "u1" "firstName" "t0"
        { mkDataSync [] with userId := some "u" }
        ([Val.vstr "A"] ++ [Val.vstr "B"])).1.pendingWrites =
        [("users.u1.firstName", ⟨"users", "u1", "firstName", Val.vstr "B"⟩)]
    ∧ (fireFlush (fun _ => true)
        (applyEdits "users" "u1" "firstName" "t0"
          { mkDataSync [] with userId := some "u" }
          ([Val.vstr "A"] ++ [Val.vstr "B"])).1
        "users.u1.firstName" "2026-01-01").2.calls =
        [⟨"users/u", [("firstName", Val.vstr "B"),
          ("lastUpdated", Val.vstr "2026-01-01")]⟩] := by
  have h := debounce_last_write_wins "u" "users" "u1" "firstName" "t0"
    "2026-01-01" (fun _ => true) [Val.vstr "A"] (Val.vstr "B")
    { mkDataSync [] with userId := some "u" }
    rfl rfl (by intro l hl a b; simp [mkDataSync] at hl) (by decide)
  exact ⟨h.1, h.2.1, h.2.2.1⟩

/-! ### Claim C6 -/

theorem processKey_preserves (gw : WriteCall → Bool) (uid : String)
    (s : SyncState) (k : String) :
    (processKey gw uid s k).1.syncListeners = s.syncListeners
    ∧ (processKey gw uid s k).1.userId = s.userId
    ∧ (processKey gw uid s k).1.syncStatus = s.syncStatus
    ∧ (processKey gw uid s k).1.pendingWrites = s.pendingWrites := by
  unfold processKey
  rcases singletonField k with _ | fld
  · exact ⟨rfl, rfl, rfl, rfl⟩
  · dsimp only
    split
    · exact ⟨rfl, rfl, rfl, rfl⟩
    · exact ⟨rfl, rfl, rfl, rfl⟩

theorem processKey_calls_length (gw : WriteCall → Bool) (uid : String)
    (s : SyncState) (k : String) :
    (processKey gw uid s k).2.length =
      (if (singletonField k).isSome then 1 else 0) := by
  unfold processKey
  rcases singletonField k with _ | fld
  · rfl
  · dsimp only
    split
    · rfl
    · rfl

theorem forceSyncLoop_preserves (gw : WriteCall → Bool) (uid : String)
    (keys : List String) :
    ∀ s : SyncState,
      (forceSyncLoop gw uid s keys).1.syncListeners = s.syncListeners
      ∧ (forceSyncLoop gw uid s keys).1.userId = s.userId
      ∧ (forceSyncLoop gw uid s keys).1.syncStatus = s.syncStatus
      ∧ (forceSyncLoop gw uid s keys).1.pendingWrites = s.pendingWrites := by
  induction keys with
  | nil => intro s; exact ⟨rfl, rfl, rfl, rfl⟩
  | cons k ks ih =>
      intro s
      obtain ⟨p1, p2, p3, p4⟩ := processKey_preserves gw uid s k
      obtain ⟨q1, q2, q3, q4⟩ := ih (processKey gw uid s k).1
      simp only [forceSyncLoop]
      exact ⟨q1.trans p1, q2.trans p2, q3.trans p3, q4.trans p4⟩

theorem forceSyncLoop_calls_length (gw : WriteCall → Bool) (uid : String)
    (keys : List String) :
    ∀ s : SyncState,
      (forceSyncLoop gw uid s keys).2.length =
        (keys.filter fun k => (singletonField k).isSome).length := by
  induction keys with
  | nil => intro s; rfl
  | cons k ks ih =>
      intro s
      simp only [forceSyncLoop, List.length_append,
        processKey_calls_length gw uid s k, ih (processKey gw uid s k).1]
      by_cases hk : (singletonField k).isSome
      · simp [List.filter, hk, Nat.add_comm]
      · simp [List.filter, hk]

/-- C6 counterexample: the claim says a second `forceSync` while one is in
flight makes no gateway calls and returns as a no-op.  `forceSyncMid … 0` is
the coordinator state while a first run is suspended at its first gateway
`await` (one backlog entry still present); a second `forceSync` launched
from that state performs a gateway call — there is no reconciliation-
in-progress flag in the state at all. -/
theorem forceSync_reentry_performs_calls :
    (backlogKeys ({ mkDataSync [("formData", Val.vstr "x")] with
        userId := some "u" } : SyncState).localStorage).length = 1
    ∧ (forceSync (fun _ => true)
        (forceSyncMid (fun _ => true)
          { mkDataSync [("formData", Val.vstr "x")] with
            userId := some "u" } 0)).2.1.calls =
      [⟨"users/u", [("forms", Val.vstr "x")]⟩]
    ∧ (forceSync (fun _ => true)
        (forceSyncMid (fun _ => true)
          { mkDataSync [("formData", Val.vstr "x")] with
            userId := some "u" } 0)).2.1.calls ≠ [] :=
  ⟨rfl, rfl, by
    intro h
    have h2 : ([⟨"users/u", [("forms", Val.vstr "x")]⟩] : List WriteCall) =
        [] := h
    exact List.cons_ne_nil _ _ h2⟩

/-- C6 (amended): `forceSync` has no re-entrancy guard.  Its only early
return is the missing-identity check: with no `userId` it is a no-op
returning `false`.  With a `userId` — including every state reachable while
another `forceSync` run is suspended at a gateway call — it notifies and
performs one gateway call per singleton backlog entry currently in
`localStorage`; a second concurrent call therefore repeats the gateway
writes for every still-present entry rather than returning as a no-op. -/
theorem forceSync_no_reentrancy_guard :
    (∀ (gw : WriteCall → Bool) (s : SyncState), s.userId = none →
       forceSync gw s = (s, ⟨[], [], none⟩, false))
    ∧ (∀ (gw : WriteCall → Bool) (s : SyncState) (u : String),
        s.userId = some u → listenersOk s →
        (forceSync gw s).2.1.calls.length =
          ((backlogKeys s.localStorage).filter
            fun k => (singletonField k).isSome).length) := by
  constructor
  · intro gw s h
    simp [forceSync, h]
  · intro gw s u hu hok
    have hn := notifySyncListeners_ok s "syncing" "Syncing..." hok
    obtain ⟨q1, q2, q3, q4⟩ := forceSyncLoop_preserves gw u
      (backlogKeys s.localStorage)
      { s with userId := some u, syncStatus := "syncing" }
    have hok₂ : listenersOk (forceSyncLoop gw u
        { s with userId := some u, syncStatus := "syncing" }
        (backlogKeys s.localStorage)).1 := by
      unfold listenersOk
      rw [q1]
      exact hok
    have hn₂ := notifySyncListeners_ok
      (forceSyncLoop gw u
        { s with userId := some u, syncStatus := "syncing" }
        (backlogKeys s.localStorage)).1
      "synced" "All changes saved" hok₂
    simp only [forceSync, hu, hn, hn₂]
    exact forceSyncLoop_calls_length gw u (backlogKeys s.localStorage)
      { s with userId := some u, syncStatus := "syncing" }

/-- C6 witness: with no user `forceSync` is a no-op returning `false`; with
a user and one singleton backlog entry it performs exactly one gateway
call even when launched mid-flight. -/
theorem forceSync_no_reentrancy_guard_witness :
    forceSync (fun _ => true) (mkDataSync [("formData", Val.vstr "x")]) =
      (mkDataSync [("formData", Val.vstr "x")], ⟨[], [], none⟩, false)
    ∧ (forceSync (fun _ => true)
        { mkDataSync [("formData", Val.vstr "x")] with
          userId := some "u" }).2.1.calls.length = 1 := by
  constructor
  · exact forceSync_no_reentrancy_guard.1 (fun _ => true)
      (mkDataSync [("formData", Val.vstr "x")]) rfl
  · have h := forceSync_no_reentrancy_guard.2 (fun _ => true)
      { mkDataSync [("formData", Val.vstr "x")] with userId := some "u" }
      "u" rfl (by intro l hl a b; simp [mkDataSync] at hl)
    exact h

/-! ### Claim C1 -/

theorem isBacklogKey_of_singleton (k : String)
    (h : (singletonField k).isSome) : isBacklogKey k = true := by
  unfold singletonField at h
  split_ifs at h with h1 h2 h3
  · subst h1; rfl
  · subst h2; rfl
  · subst h3; rfl
  · simp at h

theorem backlogKeys_of_singleton (store : List (String × Val))
    (h : ∀ kv ∈ store, (singletonField kv.1).isSome) :
    backlogKeys store = store.map Prod.fst := by
  unfold backlogKeys
  induction store with
  | nil => rfl
  | cons kv rest ih =>
      have hk := isBacklogKey_of_singleton kv.1
        (h kv (List.mem_cons_self _ _))
      have hrest := ih (fun x hx => h x (List.mem_cons_of_mem _ hx))
      simp [List.filter, hk, hrest]

theorem forceSyncLoop_singleton (gw : WriteCall → Bool) (uid : String) :
    ∀ (rest pre : List (String × Val)) (s : SyncState),
      s.localStorage = pre ++ rest →
      (∀ kv ∈ rest, (singletonField kv.1).isSome) →
      (∀ kv ∈ rest, kv.1 ∉ pre.map Prod.fst) →
      (rest.map Prod.fst).Nodup →
      (forceSyncLoop gw uid s (rest.map Prod.fst)).1.localStorage =
        pre ++ rest.filter (fun kv => !gw (entryCall uid kv)) := by
  intro rest
  induction rest with
  | nil =>
      intro pre s hs _ _ _
      simpa [forceSyncLoop] using hs
  | cons kv rest ih =>
      intro pre s hs hsing hdisj hnodup
      obtain ⟨k, v⟩ := kv
      have hkpre : k ∉ pre.map Prod.fst := hdisj (k, v) (List.mem_cons_self _ _)
      rw [List.map_cons, List.nodup_cons] at hnodup
      obtain ⟨hkrest, hnrest⟩ := hnodup
      have hlook : lookup s.localStorage k = some v := by
        rw [hs, lookup_append_right _ _ _ hkpre]
        simp [lookup]
      obtain ⟨fld, hfld⟩ : ∃ fld, singletonField k = some fld := by
        have h := hsing (k, v) (List.mem_cons_self _ _)
        cases hsf : singletonField k with
        | none => rw [hsf] at h; simp at h
        | some fld => exact ⟨fld, rfl⟩
      have hcall : entryCall uid (k, v) = ⟨"users/" ++ uid, [(fld, v)]⟩ := by
        simp [entryCall, hfld]
      have hsing' : ∀ x ∈ rest, (singletonField x.1).isSome :=
        fun x hx => hsing x (List.mem_cons_of_mem _ hx)
      simp only [List.map_cons, forceSyncLoop, processKey, hlook,
        Option.getD_some, hfld]
      by_cases hgw : gw ⟨"users/" ++ uid, [(fld, v)]⟩ = true
      · have hrm : removeItem s.localStorage k = pre ++ rest := by
          rw [hs, removeItem_append_right _ _ _ hkpre]
          have : removeItem ((k, v) :: rest) k = rest := by
            simp [removeItem, removeItem_of_not_mem rest k hkrest]
          rw [this]
        have hrec := ih pre
          { s with localStorage := removeItem s.localStorage k }
          (by simpa using hrm)
          hsing'
          (fun x hx => hdisj x (List.mem_cons_of_mem _ hx))
          hnrest
        simp only [hgw, if_true]
        rw [hrec]
        simp [List.filter, hcall, hgw]
      · rw [Bool.not_eq_true] at hgw
        have hdisj' : ∀ x ∈ rest, x.1 ∉ (pre ++ [(k, v)]).map Prod.fst := by
          intro x hx
          have hxk : x.1 ≠ k := by
            have hxm : x.1 ∈ rest.map Prod.fst :=
              List.mem_map_of_mem Prod.fst hx
            intro he
            rw [he] at hxm
            exact hkrest hxm
          simp [List.mem_append, hdisj x (List.mem_cons_of_mem _ hx), hxk]
        have hrec := ih (pre ++ [(k, v)]) s
          (by rw [hs]; simp)
          hsing'
          hdisj'
          hnrest
        simp only [hgw]
        rw [if_neg (by simp), hrec]
        simp [List.filter, hcall, hgw]

/-- C1 counterexample: a backlog of `N = 1` entry (`formData`) whose write
the gateway rejects (`M = 0`): the entry correctly remains, but `forceSync`
still ends by notifying `'synced'` — the status is `Synced` although
`M ≠ N`, refuting the claimed "status is Synced iff M = N". -/
theorem forceSync_reports_synced_despite_rejection :
    (forceSync (fun _ => false)
        { mkDataSync [("formData", Val.vstr "x")] with
          userId := some "u" }).1.syncStatus = "synced"
    ∧ (forceSync (fun _ => false)
        { mkDataSync [("formData", Val.vstr "x")] with
          userId := some "u" }).1.localStorage =
        [("formData", Val.vstr "x")]
    ∧ (forceSync (fun _ => false)
        { mkDataSync [("formData", Val.vstr "x")] with
          userId := some "u" }).2.1.calls.length = 1 :=
  ⟨rfl, rfl, rfl⟩

/-- C1 (amended): running `forceSync` with a user present, no throwing
listener, and a backlog of `N` independent singleton entries (distinct keys
among `formData`, `progressData`, `settings`), of which the gateway accepts
`M` and rejects `N - M`: one gateway call is made per entry, exactly the
`M` accepted entries are deleted and the `N - M` rejected ones remain — but
the resulting status is `Synced` unconditionally (even when `M < N`), and
the call returns `true`; the claimed "Synced iff M = N" does not hold. -/
theorem forceSync_partial_failure (gw : WriteCall → Bool) (u : String)
    (s : SyncState) (hu : s.userId = some u) (hok : listenersOk s)
    (hsing : ∀ kv ∈ s.localStorage, (singletonField kv.1).isSome)
    (hnodup : (s.localStorage.map Prod.fst).Nodup) :
    (forceSync gw s).1.localStorage =
      s.localStorage.filter (fun kv => !gw (entryCall u kv))
    ∧ (forceSync gw s).2.1.calls.length = s.localStorage.length
    ∧ (s.localStorage.filter fun kv => gw (entryCall u kv)).length
        + (forceSync gw s).1.localStorage.length = s.localStorage.length
    ∧ (forceSync gw s).1.syncStatus = "synced"
    ∧ (forceSync gw s).2.2 = true := by
  have hn := notifySyncListeners_ok s "syncing" "Syncing..." hok
  have hkeys : backlogKeys s.localStorage = s.localStorage.map Prod.fst :=
    backlogKeys_of_singleton s.localStorage hsing
  obtain ⟨q1, q2, q3, q4⟩ := forceSyncLoop_preserves gw u
    (backlogKeys s.localStorage)
    { s with userId := some u, syncStatus := "syncing" }
  have hok₂ : listenersOk (forceSyncLoop gw u
      { s with userId := some u, syncStatus := "syncing" }
      (backlogKeys s.localStorage)).1 := by
    unfold listenersOk
    rw [q1]
    exact hok
  have hn₂ := notifySyncListeners_ok
    (forceSyncLoop gw u
      { s with userId := some u, syncStatus := "syncing" }
      (backlogKeys s.localStorage)).1
    "synced" "All changes saved" hok₂
  have hstore : (forceSyncLoop gw u
      { s with userId := some u, syncStatus := "syncing" }
      (backlogKeys s.localStorage)).1.localStorage =
      s.localStorage.filter (fun kv => !gw (entryCall u kv)) := by
    rw [hkeys]
    have h := forceSyncLoop_singleton gw u s.localStorage []
      { s with userId := some u, syncStatus := "syncing" }
      (by simp) hsing (by simp) hnodup
    simpa using h
  have hlen : (forceSyncLoop gw u
      { s with userId := some u, syncStatus := "syncing" }
      (backlogKeys s.localStorage)).2.length = s.localStorage.length := by
    rw [forceSyncLoop_calls_length, hkeys]
    rw [List.filter_eq_self.mpr]
    · simp
    · intro k hk
      obtain ⟨kv, hkv, rfl⟩ := List.mem_map.mp hk
      exact hsing kv hkv
  simp only [forceSync, hu, hn, hn₂]
  refine ⟨hstore, hlen, ?_, trivial, trivial⟩
  rw [hstore]
  exact length_filter_add_length_filter_not s.localStorage
    (fun kv => gw (entryCall u kv))

/-- C1 witness: a backlog of two singleton entries where the gateway accepts
`formData` and rejects `settings`: two gateway calls, one deletion, one
entry remaining, final status `'synced'`, return value `true`. -/
theorem forceSync_partial_failure_witness :
    (forceSync
        (fun call => match call.fields with
          | [("forms", _)] => true
          | _ => false)
        { mkDataSync [("formData", Val.vstr "F"), ("settings", Val.vobj [])]
          with userId := some "u" }).1.localStorage =
      [("settings", Val.vobj [])]
    ∧ (forceSync
        (fun call => match call.fields with
          | [("forms", _)] => true
          | _ => false)
        { mkDataSync [("formData", Val.vstr "F"), ("settings", Val.vobj [])]
          with userId := some "u" }).2.1.calls.length = 2
    ∧ (forceSync
        (fun call => match call.fields with
          | [("forms", _)] => true
          | _ => false)
        { mkDataSync [("formData", Val.vstr "F"), ("settings", Val.vobj [])]
          with userId := some "u" }).1.syncStatus = "synced"
    ∧ (forceSync
        (fun call => match call.fields with
          | [("forms", _)] => true
          | _ => false)
        { mkDataSync [("formData", Val.vstr "F"), ("settings", Val.vobj [])]
          with userId := some "u" }).2.2 = true := by
  have h := forceSync_partial_failure
    (fun call => match call.fields with
      | [("forms", _)] => true
      | _ => false)
    "u"
    { mkDataSync [("formData", Val.vstr "F"), ("settings", Val.vobj [])]
      with userId := some "u" }
    rfl
    (by intro l hl a b; simp [mkDataSync] at hl)
    (by
      intro kv hkv
      simp [mkDataSync] at hkv
      rcases hkv with h | h <;> subst h <;> decide)
    (by decide)
  exact ⟨h.1, h.2.1, h.2.2.2.1, h.2.2.2.2⟩

end VisaGuide
